import Mathlib

set_option maxRecDepth 8192

/-
Verification of the filterable entity store contract exercised by
src/testhelper/__init__.py.  The store implementation itself ships outside
this repository; only its contract tests are present, so the filter engine
below is modelled from the specification (see the doc comments marked
Modelled from the spec), while compare_base_attributes is translated
directly from the source file.
-/

namespace TestHelper

/-- Raw, loosely-typed values as supplied by callers of the store: the
attribute and filter inputs the contract exercises (text, integers,
booleans, byte strings, ordered containers, keyed containers and the
absence marker). -/
inductive RawValue where
  | int : Int → RawValue
  | str : String → RawValue
  | bool : Bool → RawValue
  | bytes : List Nat → RawValue
  | vlist : List RawValue → RawValue
  | vdict : List (String × RawValue) → RawValue
  | noneV : RawValue

/-- Modelled from the spec: a filter value may be a single scalar or an
ordered list of raw values; a list is taken apart into its entries, any
other value is a one-entry value set. -/
def listify : RawValue → List RawValue
  | .vlist vs => vs
  | v => [v]

/-- A stored entity with one attribute of every kind the contract
exercises.  The store below holds only live entities, so deletion is
represented by absence from the store list. -/
structure Entity where
  id : String := ""
  int_field : Int := 0
  time_field : Int := 0
  bool_field : Bool := false
  str_field : String := ""
  group_bits : Nat := 0
  remote_origin : String := ""
deriving DecidableEq

/-- Characters of the URL-safe base64 alphabet. -/
def isBase64UrlChar (c : Char) : Bool :=
  c.isAlphanum || c == '-' || c == '_'

/-- Modelled from the spec: an id text is well formed iff it decodes to a
128-bit identifier, i.e. it is 22 characters of the URL-safe base64
alphabet.  The byte-to-text codec itself is the out-of-scope
IdentifierCodec collaborator; ids are represented here by their canonical
text form. -/
def wellFormedIdText (s : String) : Bool :=
  s.length == 22 && s.data.all isBase64UrlChar

/-- Modelled from the spec: id coercion accepts a well-formed URL-safe
text encoding; any other type, or text of the wrong length or alphabet,
fails. -/
def coerce_id : RawValue → Option String
  | .str s => if wellFormedIdText s then some s else Option.none
  | _ => Option.none

/-- The listed id values that survive coercion, in order. -/
def valid_ids (raw : RawValue) : List String :=
  (listify raw).filterMap coerce_id

/-- Modelled from the spec: the id-equality filter matches any listed id
(OR), silently drops entries that fail coercion, and rejects every entity
when no valid id remains. -/
def compile_id_filter (raw : RawValue) (e : Entity) : Bool :=
  (valid_ids raw).contains e.id

/-- Modelled from the spec: search with an id-equality filter keeps the
live entities matched by the compiled predicate; it is a total function,
so query-time coercion failures can never raise. -/
def search_by_id (store : List Entity) (raw : RawValue) : List Entity :=
  store.filter (compile_id_filter raw)

theorem filterMap_filter_isSome {α β : Type} (f : α → Option β) (l : List α) :
    l.filterMap f = (l.filter fun x => (f x).isSome).filterMap f := by
  induction l with
  | nil => rfl
  | cons x xs ih =>
    cases h : f x <;>
      simp [List.filterMap_cons, List.filter_cons, h, ih]

theorem filterMap_eq_nil_of_all_none {α β : Type} (f : α → Option β)
    (l : List α) (h : ∀ v ∈ l, f v = Option.none) :
    l.filterMap f = [] := by
  induction l with
  | nil => rfl
  | cons x xs ih =>
    have hx := h x (by simp)
    simp [List.filterMap_cons, hx, ih fun v hv => h v (by simp [hv])]

/-- C1: for an id-equality filter value list holding at least one valid
id, every invalid entry is dropped and the search result equals the one
obtained by listing only the valid ids; a value set made only of invalid
ids (a single invalid scalar or a list of them) returns zero results, and
search, being total, never raises. -/
theorem search_by_id_invalid_policy :
    (∀ (store : List Entity) (vs : List RawValue),
      (∃ v ∈ vs, (coerce_id v).isSome) →
      search_by_id store (.vlist vs)
        = search_by_id store (.vlist (vs.filter fun v => (coerce_id v).isSome)))
    ∧ (∀ (store : List Entity) (raw : RawValue),
      (∀ v ∈ listify raw, coerce_id v = Option.none) →
      search_by_id store raw = []) := by
  constructor
  · intro store vs _
    have h : valid_ids (.vlist vs)
        = valid_ids (.vlist (vs.filter fun v => (coerce_id v).isSome)) := by
      simp only [valid_ids, listify]
      exact filterMap_filter_isSome coerce_id vs
    unfold search_by_id compile_id_filter
    rw [h]
  · intro store raw h
    have h0 : valid_ids raw = [] :=
      filterMap_eq_nil_of_all_none coerce_id (listify raw) h
    simp [search_by_id, compile_id_filter, h0]

/-- A well-formed demonstration id (22 characters of the alphabet). -/
def goodIdText : String := String.mk (List.replicate 22 'A')

/-- A second well-formed demonstration id. -/
def otherIdText : String := String.mk (List.replicate 22 'B')

/-- A malformed id text taken from the invalid_ids fixture of the source. -/
def badIdText : String := "not a valid base64_url string"

/-- A two-entity demonstration store keyed by id. -/
def demoIdStore : List Entity :=
  [{ id := goodIdText }, { id := otherIdText }]

theorem search_by_id_invalid_policy_witness :
    search_by_id demoIdStore (.vlist [.str badIdText, .str goodIdText])
      = search_by_id demoIdStore
          (.vlist ([RawValue.str badIdText, RawValue.str goodIdText].filter
            fun v => (coerce_id v).isSome))
    ∧ search_by_id demoIdStore (.str badIdText) = [] :=
  ⟨search_by_id_invalid_policy.1 demoIdStore
      [.str badIdText, .str goodIdText]
      ⟨.str goodIdText,
        List.mem_cons_of_mem _ (List.mem_cons_self _ _), by decide⟩,
    search_by_id_invalid_policy.2 demoIdStore (.str badIdText)
      (by decide)⟩

/-- Reads a run of decimal digits as a natural number; fails on an empty
run or any non-digit character. -/
def decimalDigits (cs : List Char) : Option Nat :=
  if cs.isEmpty then Option.none
  else
    cs.foldl
      (fun acc c =>
        acc.bind fun n =>
          if c.isDigit then some (n * 10 + (c.toNat - 48)) else Option.none)
      (some 0)

/-- Reads signed decimal text; fails on non-numeric text. -/
def textToInt (s : String) : Option Int :=
  match s.data with
  | [] => Option.none
  | c :: cs =>
    if c == '-' then (decimalDigits cs).map fun n => -(n : Int)
    else (decimalDigits (c :: cs)).map fun n => (n : Int)

/-- Modelled from the spec: best-effort numeric cast for the Int, Time and
Bitmask attribute kinds; integers and booleans cast, numeric text casts,
any other value (non-numeric text, byte strings, containers, the absence
marker) fails. -/
def coerce_int : RawValue → Option Int
  | .int n => some n
  | .bool b => some (if b then 1 else 0)
  | .str s => textToInt s
  | _ => Option.none

/-- Modelled from the spec: bitmask values are unsigned integers obtained
by the numeric cast. -/
def coerce_bits (v : RawValue) : Option Nat :=
  (coerce_int v).bind fun n => if n < 0 then Option.none else some n.toNat

/-- The listed bitmask values that survive coercion, in order. -/
def valid_bits (raw : RawValue) : List Nat :=
  (listify raw).filterMap coerce_bits

/-- Coerces every listed value, failing as a whole when any single entry
fails: the all-or-nothing mode of the abort-whole-filter policy kinds. -/
def coerceAll {β : Type} (f : RawValue → Option β) : List RawValue → Option (List β)
  | [] => some []
  | v :: vs => (f v).bind fun b => (coerceAll f vs).map fun bs => b :: bs

theorem coerceAll_cons_none {β : Type} (f : RawValue → Option β)
    (v : RawValue) (vs : List RawValue) (h : f v = Option.none) :
    coerceAll f (v :: vs) = Option.none := by
  simp [coerceAll, h]

/-- Modelled from the spec: the with_ bitmask filter requires every bit of
the value to be set; any coercion failure aborts the whole filter into a
reject-all predicate. -/
def compile_with_bits_filter (raw : RawValue) (e : Entity) : Bool :=
  match coerceAll coerce_bits (listify raw) with
  | Option.none => false
  | some vals => vals.all fun v => (e.group_bits &&& v) == v

/-- Modelled from the spec: the without_ bitmask filter requires every bit
of the value to be clear; entries that fail coercion are dropped, so an
all-invalid value set leaves the filter without any constraint. -/
def compile_without_bits_filter (raw : RawValue) (e : Entity) : Bool :=
  (valid_bits raw).all fun v => (e.group_bits &&& v) == 0

/-- Modelled from the spec: search filtered on required group bits. -/
def search_with_group_bits (store : List Entity) (raw : RawValue) : List Entity :=
  store.filter (compile_with_bits_filter raw)

/-- Modelled from the spec: search filtered on absent group bits. -/
def search_without_group_bits (store : List Entity) (raw : RawValue) : List Entity :=
  store.filter (compile_without_bits_filter raw)

/-- C2: with an invalid-only value set the two bitmask filters diverge:
with_group_bits rejects every entity (zero results) while
without_group_bits imposes no constraint and returns every live entity. -/
theorem group_bits_invalid_divergence :
    ∀ (store : List Entity) (raw : RawValue),
      listify raw ≠ [] →
      (∀ v ∈ listify raw, coerce_bits v = Option.none) →
      search_with_group_bits store raw = []
        ∧ search_without_group_bits store raw = store := by
  intro store raw hne hall
  constructor
  · cases hl : listify raw with
    | nil => exact absurd hl hne
    | cons v vs =>
      have hv : coerce_bits v = Option.none := hall v (by simp [hl])
      have hm : coerceAll coerce_bits (listify raw) = Option.none := by
        rw [hl]; exact coerceAll_cons_none coerce_bits v vs hv
      simp [search_with_group_bits, compile_with_bits_filter, hm]
  · have h0 : valid_bits raw = [] :=
      filterMap_eq_nil_of_all_none coerce_bits (listify raw) hall
    simp [search_without_group_bits, compile_without_bits_filter, h0]

/-- A five-entity demonstration store mirroring the group-bits fixture of
the source: single groups 1, 2 and 4, then the combinations 5 and 6. -/
def demoBitsStore : List Entity :=
  [{ group_bits := 1 }, { group_bits := 2 }, { group_bits := 4 },
    { group_bits := 5 }, { group_bits := 6 }]

theorem group_bits_invalid_divergence_witness :
    search_with_group_bits demoBitsStore (.str "string") = []
      ∧ search_without_group_bits demoBitsStore (.str "string") = demoBitsStore :=
  group_bits_invalid_divergence demoBitsStore (.str "string")
    (by simp [listify]) (by decide)

/-- C7: the with_ bitmask filter keeps exactly the entities having every
bit of the value set and the without_ filter exactly those with every such
bit clear; the entity with stored bits 5 matches with_group_bits 1 and 4
but not 2, and matches without_group_bits 2. -/
theorem group_bits_filter_semantics :
    (∀ (store : List Entity) (n : Nat) (e : Entity),
      (e ∈ search_with_group_bits store (.int (n : Int))
        ↔ e ∈ store ∧ e.group_bits &&& n = n)
      ∧ (e ∈ search_without_group_bits store (.int (n : Int))
        ↔ e ∈ store ∧ e.group_bits &&& n = 0))
    ∧ search_with_group_bits [{ group_bits := 5 }] (.int 1)
        = [{ group_bits := 5 }]
    ∧ search_with_group_bits [{ group_bits := 5 }] (.int 4)
        = [{ group_bits := 5 }]
    ∧ search_with_group_bits [{ group_bits := 5 }] (.int 2) = []
    ∧ search_without_group_bits [{ group_bits := 5 }] (.int 2)
        = [{ group_bits := 5 }] := by
  refine ⟨?_, by decide, by decide, by decide, by decide⟩
  intro store n e
  have hc : coerce_bits (.int (n : Int)) = some n := by
    have h : ¬((n : Int) < 0) := by omega
    simp [coerce_bits, coerce_int, h]
  constructor
  · simp [search_with_group_bits, compile_with_bits_filter, listify,
      coerceAll, hc, List.mem_filter]
  · simp [search_without_group_bits, compile_without_bits_filter,
      valid_bits, listify, hc, List.mem_filter]

theorem group_bits_filter_semantics_witness :
    ({ group_bits := 5 } : Entity) ∈
        search_with_group_bits demoBitsStore (.int ((1 : Nat) : Int))
      ∧ ({ group_bits := 5 } : Entity).group_bits &&& 1 = 1 :=
  ⟨((group_bits_filter_semantics.1 demoBitsStore 1
      { group_bits := 5 }).1).2 ⟨by decide, by decide⟩,
    by decide⟩

/-- Modelled from the spec: a cutoff filter takes a single bound; the
less-than form keeps entities whose field is strictly below the bound, and
a failed numeric cast aborts the whole filter into a reject-all
predicate. -/
def compile_less_than_filter (field : Entity → Int) (raw : RawValue)
    (e : Entity) : Bool :=
  match coerce_int raw with
  | Option.none => false
  | some bound => decide (field e < bound)

/-- Modelled from the spec: the greater-than cutoff keeps entities whose
field is strictly above the bound, aborting to reject-all on a failed
cast. -/
def compile_greater_than_filter (field : Entity → Int) (raw : RawValue)
    (e : Entity) : Bool :=
  match coerce_int raw with
  | Option.none => false
  | some bound => decide (bound < field e)

/-- Search with a less-than cutoff on the integer attribute. -/
def search_int_less_than (store : List Entity) (raw : RawValue) : List Entity :=
  store.filter (compile_less_than_filter (fun e => e.int_field) raw)

/-- Search with a greater-than cutoff on the integer attribute. -/
def search_int_greater_than (store : List Entity) (raw : RawValue) : List Entity :=
  store.filter (compile_greater_than_filter (fun e => e.int_field) raw)

/-- Search with both cutoffs of one filter mapping: distinct filter keys
combine with logical AND, giving the open interval. -/
def search_int_window (store : List Entity) (gtRaw ltRaw : RawValue) : List Entity :=
  store.filter fun e =>
    compile_greater_than_filter (fun x => x.int_field) gtRaw e
      && compile_less_than_filter (fun x => x.int_field) ltRaw e

/-- Modelled from the spec: the time cutoff casts exactly like the integer
cutoff and bounds the raw epoch seconds of the time attribute. -/
def search_time_before (store : List Entity) (raw : RawValue) : List Entity :=
  store.filter (compile_less_than_filter (fun e => e.time_field) raw)

/-- Modelled from the spec: strict greater-than bound on epoch seconds. -/
def search_time_after (store : List Entity) (raw : RawValue) : List Entity :=
  store.filter (compile_greater_than_filter (fun e => e.time_field) raw)

/-- A three-entity demonstration store with integer values 0, 1 and 2. -/
def demoCutoffStore : List Entity :=
  [{ int_field := 0 }, { int_field := 1 }, { int_field := 2 }]

/-- C3: cutoff filters are strict: over values 0, 1, 2 the bound
less-than 2 returns exactly the entities valued 0 and 1, greater-than 0
exactly those valued 1 and 2, and both bounds together exactly the entity
valued 1; in general the less-than key keeps exactly entities strictly
below the bound and the greater-than key exactly those strictly above. -/
theorem int_cutoff_strict_semantics :
    search_int_less_than demoCutoffStore (.int 2)
        = [{ int_field := 0 }, { int_field := 1 }]
    ∧ search_int_greater_than demoCutoffStore (.int 0)
        = [{ int_field := 1 }, { int_field := 2 }]
    ∧ search_int_window demoCutoffStore (.int 0) (.int 2)
        = [{ int_field := 1 }]
    ∧ (∀ (store : List Entity) (b : Int) (e : Entity),
      (e ∈ search_int_less_than store (.int b)
        ↔ e ∈ store ∧ e.int_field < b)
      ∧ (e ∈ search_int_greater_than store (.int b)
        ↔ e ∈ store ∧ b < e.int_field)) := by
  refine ⟨by decide, by decide, by decide, ?_⟩
  intro store b e
  constructor
  · simp [search_int_less_than, compile_less_than_filter, coerce_int,
      List.mem_filter]
  · simp [search_int_greater_than, compile_greater_than_filter, coerce_int,
      List.mem_filter]

/-- C4: an int or time cutoff given a single value that fails the numeric
cast aborts into a reject-all predicate: the search returns zero results,
and being a total function it cannot raise. -/
theorem cutoff_invalid_rejects_all :
    ∀ (store : List Entity) (raw : RawValue),
      coerce_int raw = Option.none →
      search_int_less_than store raw = []
        ∧ search_int_greater_than store raw = []
        ∧ search_time_before store raw = []
        ∧ search_time_after store raw = [] := by
  intro store raw h
  refine ⟨?_, ?_, ?_, ?_⟩ <;>
    simp [search_int_less_than, search_int_greater_than,
      search_time_before, search_time_after,
      compile_less_than_filter, compile_greater_than_filter, h]

theorem cutoff_invalid_rejects_all_witness :
    search_int_less_than demoCutoffStore (.str "string") = []
      ∧ search_int_greater_than demoCutoffStore (.str "string") = []
      ∧ search_time_before demoCutoffStore (.str "string") = []
      ∧ search_time_after demoCutoffStore (.str "string") = [] :=
  cutoff_invalid_rejects_all demoCutoffStore (.str "string") (by decide)

/-- Splits a character list at every dot, keeping empty parts. -/
def splitOnDot : List Char → List (List Char)
  | [] => [[]]
  | c :: cs =>
    let rest := splitOnDot cs
    if c == '.' then [] :: rest
    else
      match rest with
      | [] => [[c]]
      | r :: rs => (c :: r) :: rs

/-- Modelled from the spec: an IP-address-shaped string is four
dot-separated decimal components, each between 0 and 255. -/
def isValidIpText (s : String) : Bool :=
  let parts := splitOnDot s.data
  parts.length == 4 &&
    parts.all fun p =>
      match decimalDigits p with
      | some n => n ≤ 255
      | Option.none => false

/-- Modelled from the spec: remote-origin coercion accepts text that
parses as an IP-address-shaped string and fails on everything else. -/
def coerce_origin : RawValue → Option String
  | .str s => if isValidIpText s then some s else Option.none
  | _ => Option.none

/-- The listed origin values that survive coercion, in order. -/
def valid_origins (raw : RawValue) : List String :=
  (listify raw).filterMap coerce_origin

/-- Modelled from the spec: the without_ remote-origin filter requires the
stored origin to differ from every listed origin (AND of inequalities);
entries failing coercion are dropped and the still-valid ones enforced,
but when at least one entry was supplied and none survives, the filter
falls back to the safe reject-all predicate. -/
def compile_without_origin_filter (raw : RawValue) (e : Entity) : Bool :=
  if !(listify raw).isEmpty && (valid_origins raw).isEmpty then false
  else (valid_origins raw).all fun o => e.remote_origin != o

/-- Modelled from the spec: search filtered on excluded remote origins. -/
def search_without_remote_origin (store : List Entity) (raw : RawValue) :
    List Entity :=
  store.filter (compile_without_origin_filter raw)

/-- C5: a without_ remote-origin value list mixing invalid entries with
exactly one valid origin drops the invalid entries and still enforces the
valid one, returning exactly the live entities whose origin differs from
it; a non-empty value set made only of invalid entries returns zero
results. -/
theorem without_remote_origin_invalid_policy :
    (∀ (store : List Entity) (raw : RawValue) (o : String),
      valid_origins raw = [o] →
      search_without_remote_origin store raw
        = store.filter fun e => e.remote_origin != o)
    ∧ (∀ (store : List Entity) (raw : RawValue),
      listify raw ≠ [] →
      (∀ v ∈ listify raw, coerce_origin v = Option.none) →
      search_without_remote_origin store raw = []) := by
  constructor
  · intro store raw o h
    have hp : compile_without_origin_filter raw
        = fun e => e.remote_origin != o := by
      funext e
      simp [compile_without_origin_filter, h]
    rw [search_without_remote_origin, hp]
  · intro store raw hne hall
    have h0 : valid_origins raw = [] :=
      filterMap_eq_nil_of_all_none coerce_origin (listify raw) hall
    have h1 : (listify raw).isEmpty = false := by
      cases hl : listify raw with
      | nil => exact absurd hl hne
      | cons v vs => simp
    simp [search_without_remote_origin, compile_without_origin_filter,
      h0, h1]

/-- A three-entity demonstration store mirroring the remote-origin fixture
of the source: two entities at origin 1.1.1.1 and one at 2.2.2.2. -/
def demoOriginStore : List Entity :=
  [{ remote_origin := "1.1.1.1" }, { remote_origin := "1.1.1.1" },
    { remote_origin := "2.2.2.2" }]

theorem without_remote_origin_invalid_policy_witness :
    search_without_remote_origin demoOriginStore
        (.vlist [.str "not a valid ip address string", .str "1.1.1.1"])
      = demoOriginStore.filter (fun e => e.remote_origin != "1.1.1.1")
    ∧ search_without_remote_origin demoOriginStore
        (.vlist [.str "not a valid ip address string"]) = [] :=
  ⟨without_remote_origin_invalid_policy.1 demoOriginStore
      (.vlist [.str "not a valid ip address string", .str "1.1.1.1"])
      "1.1.1.1" (by decide),
    without_remote_origin_invalid_policy.2 demoOriginStore
      (.vlist [.str "not a valid ip address string"])
      (by simp [listify]) (by decide)⟩

/-- Modelled from the spec: string coercion renders any value as its
canonical text and never fails; the exact text of container and byte
values is never exercised by the contract and is abbreviated here. -/
def coerce_string : RawValue → String
  | .str s => s
  | .int n => toString n
  | .bool b => if b then "True" else "False"
  | .noneV => "None"
  | .bytes _ => "bytes"
  | .vlist _ => "list"
  | .vdict _ => "dict"

/-- Wildcard matching with an explicit recursion budget; every recursive
call shortens the pattern or the text, so a budget of their total length
is always sufficient. -/
def likeMatchesFuel : Nat → List Char → List Char → Bool
  | 0, _, _ => false
  | _ + 1, [], rest => rest.isEmpty
  | fuel + 1, p :: ps2, rest =>
    if p == '%' then
      likeMatchesFuel fuel ps2 rest ||
        (match rest with
         | [] => false
         | _ :: cs2 => likeMatchesFuel fuel (p :: ps2) cs2)
    else
      match rest with
      | [] => false
      | c :: cs2 => p == c && likeMatchesFuel fuel ps2 cs2

/-- Modelled from the spec: SQL-style wildcard match of a pattern against
a text, the percent character standing for any run of characters. -/
def likeMatches (ps cs : List Char) : Bool :=
  likeMatchesFuel (ps.length + cs.length + 1) ps cs

/-- The listed filter values rendered as text patterns; string coercion
never fails, so no entry is ever dropped. -/
def filter_patterns (raw : RawValue) : List String :=
  (listify raw).map coerce_string

/-- Modelled from the spec: the not-like filter combines a value list as
an OR of negations, so an entity is excluded exactly when its stored text
matches every listed pattern. -/
def compile_not_like_filter (raw : RawValue) (e : Entity) : Bool :=
  !((filter_patterns raw).all fun p => likeMatches p.data e.str_field.data)

/-- Modelled from the spec: the not-equal filter mirrors not-like with
plain equality in place of the wildcard match. -/
def compile_not_equal_filter (raw : RawValue) (e : Entity) : Bool :=
  !((filter_patterns raw).all fun p => p == e.str_field)

/-- Search with a negated wildcard filter on the string attribute. -/
def search_string_not_like (store : List Entity) (raw : RawValue) : List Entity :=
  store.filter (compile_not_like_filter raw)

/-- Search with a negated equality filter on the string attribute. -/
def search_string_not_equal (store : List Entity) (raw : RawValue) : List Entity :=
  store.filter (compile_not_equal_filter raw)

/-- A three-entity demonstration store with the string fixture of the
source: foo, bar and baz. -/
def demoStringStore : List Entity :=
  [{ str_field := "foo" }, { str_field := "bar" }, { str_field := "baz" }]

/-- C6: not-like and not-equal filters combine a value list as an OR of
negations, excluding an entity only when it matches, respectively equals,
every listed pattern; over stored values foo, bar and baz the list of the
two patterns foo and bar therefore returns all three entities under both
filters. -/
theorem string_negated_filters_or_of_negations :
    (∀ (store : List Entity) (raw : RawValue) (e : Entity),
      (e ∈ search_string_not_like store raw
        ↔ e ∈ store ∧
          ¬ ((filter_patterns raw).all fun p =>
            likeMatches p.data e.str_field.data))
      ∧ (e ∈ search_string_not_equal store raw
        ↔ e ∈ store ∧
          ¬ ((filter_patterns raw).all fun p => p == e.str_field)))
    ∧ search_string_not_like demoStringStore (.vlist [.str "foo", .str "bar"])
        = demoStringStore
    ∧ search_string_not_equal demoStringStore (.vlist [.str "foo", .str "bar"])
        = demoStringStore := by
  refine ⟨?_, by decide, by decide⟩
  intro store raw e
  constructor
  · simp [search_string_not_like, compile_not_like_filter, List.mem_filter]
  · simp [search_string_not_equal, compile_not_equal_filter, List.mem_filter]

/-- Modelled from the spec: boolean coercion never fails, mapping every
value to a truthiness verdict.  The falsy values named by the spec are
boolean false, empty text, empty containers and the absence marker; the
source tests additionally pin numeric zero as stored false (search_by_bool
builds its entities from the numeric values 1 and 0), so numeric zero and
the empty byte string are falsy here as in the reference behavior. -/
def coerce_bool : RawValue → Bool
  | .bool b => b
  | .int n => !(n == 0)
  | .str s => !s.isEmpty
  | .bytes bs => !bs.isEmpty
  | .vlist l => !l.isEmpty
  | .vdict d => !d.isEmpty
  | .noneV => false

/-- The falsy set exactly as the claim words it: boolean false, empty
text, an empty ordered container, an empty keyed container, or the
absence marker — stated from the claim for comparison against the
behavior above, not taken from the source. -/
def claimed_falsy : RawValue → Bool
  | .bool b => !b
  | .str s => s.isEmpty
  | .vlist l => l.isEmpty
  | .vdict d => d.isEmpty
  | .noneV => true
  | _ => false

/-- The amended falsy set: the claimed one extended with numeric zero and
the empty byte string. -/
def amended_falsy : RawValue → Bool
  | .bool b => !b
  | .int n => n == 0
  | .str s => s.isEmpty
  | .bytes bs => bs.isEmpty
  | .vlist l => l.isEmpty
  | .vdict d => d.isEmpty
  | .noneV => true

/-- Construction of an entity from a raw boolean attribute value: the
stored flag is the coerced truthiness verdict. -/
def make_bool_entity (v : RawValue) : Entity :=
  { bool_field := coerce_bool v }

/-- Modelled from the spec: a boolean filter keeps the entities whose
stored flag equals the coerced filter value. -/
def compile_bool_filter (raw : RawValue) (e : Entity) : Bool :=
  e.bool_field == coerce_bool raw

/-- Search with a boolean filter. -/
def search_by_bool (store : List Entity) (raw : RawValue) : List Entity :=
  store.filter (compile_bool_filter raw)

/-- C8 counterexample: the integer zero coerces to false although it is
none of boolean false, empty text, an empty container or the absence
marker, refuting the claimed falsy set. -/
theorem bool_truthiness_counterexample :
    coerce_bool (.int 0) = false ∧ claimed_falsy (.int 0) = false := by
  constructor <;> rfl

/-- C8 amended: boolean coercion never fails; a value maps to false
exactly when it is boolean false, numeric zero, empty text, an empty byte
string, an empty ordered container, an empty keyed container, or the
absence marker; construction stores the coerced verdict, and a boolean
filter returns exactly the entities whose stored flag equals the coerced
filter value. -/
theorem bool_truthiness_and_filter :
    (∀ v : RawValue, coerce_bool v = false ↔ amended_falsy v = true)
    ∧ (∀ v : RawValue, (make_bool_entity v).bool_field = coerce_bool v)
    ∧ (∀ (store : List Entity) (raw : RawValue) (e : Entity),
      e ∈ search_by_bool store raw
        ↔ e ∈ store ∧ e.bool_field = coerce_bool raw) := by
  refine ⟨?_, fun v => rfl, ?_⟩
  · intro v
    cases v <;> simp [coerce_bool, amended_falsy]
  · intro store raw e
    simp [search_by_bool, compile_bool_filter, List.mem_filter]

/-- Sort direction of a search. -/
inductive SortOrder where
  | asc : SortOrder
  | desc : SortOrder

/-- Inserts an entity behind every earlier element it does not strictly
precede, keeping the sort stable. -/
def insertByKey (lt : Entity → Entity → Bool) (x : Entity) :
    List Entity → List Entity
  | [] => [x]
  | y :: ys => if lt x y then x :: y :: ys else y :: insertByKey lt x ys

/-- Modelled from the spec: stable sort of the filtered entities by the
requested field and direction, ties broken by insertion order. -/
def sortEntities (key : Entity → Int) (ord : SortOrder)
    (xs : List Entity) : List Entity :=
  let lt : Entity → Entity → Bool :=
    match ord with
    | .asc => fun a b => decide (key a < key b)
    | .desc => fun a b => decide (key b < key a)
  xs.foldl (fun acc x => insertByKey lt x acc) []

/-- Modelled from the spec: zero-based pagination window, the slice from
page times perpage of length perpage. -/
def paginate (page perpage : Nat) (xs : List Entity) : List Entity :=
  (xs.drop (page * perpage)).take perpage

/-- Modelled from the spec: full search pipeline — filter, stable sort by
the requested field and direction, then the pagination window. -/
def search_page (store : List Entity) (pred : Entity → Bool)
    (key : Entity → Int) (ord : SortOrder) (page perpage : Nat) :
    List Entity :=
  paginate page perpage (sortEntities key ord (store.filter pred))

theorem insertByKey_length (lt : Entity → Entity → Bool) (x : Entity)
    (l : List Entity) : (insertByKey lt x l).length = l.length + 1 := by
  induction l with
  | nil => rfl
  | cons y ys ih =>
    by_cases h : lt x y = true <;> simp [insertByKey, h, ih]

theorem sortEntities_length (key : Entity → Int) (ord : SortOrder)
    (xs : List Entity) : (sortEntities key ord xs).length = xs.length := by
  suffices h : ∀ (lt : Entity → Entity → Bool) (acc : List Entity),
      (xs.foldl (fun a x => insertByKey lt x a) acc).length
        = acc.length + xs.length by
    cases ord <;> simpa [sortEntities] using h _ []
  intro lt acc
  induction xs generalizing acc with
  | nil => simp
  | cons x xs ih =>
    simp [List.foldl_cons, ih, insertByKey_length]
    omega

/-- The three-entity pagination fixture of the source, created in
ascending order of the sort field. -/
def demoPageStore : List Entity :=
  [{ int_field := 1 }, { int_field := 2 }, { int_field := 3 }]

/-- C9: with three entities of distinct sort-field values and one entity
per page, ascending search returns the first, second and third entity on
pages 0, 1 and 2 and nothing on page 3, descending search the reverse;
and in general any page at or beyond the end of the filtered collection
yields the empty sequence, never an error (search is total). -/
theorem search_pagination_and_order :
    search_page demoPageStore (fun _ => true) (fun e => e.int_field)
        .asc 0 1 = [{ int_field := 1 }]
    ∧ search_page demoPageStore (fun _ => true) (fun e => e.int_field)
        .asc 1 1 = [{ int_field := 2 }]
    ∧ search_page demoPageStore (fun _ => true) (fun e => e.int_field)
        .asc 2 1 = [{ int_field := 3 }]
    ∧ search_page demoPageStore (fun _ => true) (fun e => e.int_field)
        .asc 3 1 = []
    ∧ search_page demoPageStore (fun _ => true) (fun e => e.int_field)
        .desc 0 1 = [{ int_field := 3 }]
    ∧ search_page demoPageStore (fun _ => true) (fun e => e.int_field)
        .desc 1 1 = [{ int_field := 2 }]
    ∧ search_page demoPageStore (fun _ => true) (fun e => e.int_field)
        .desc 2 1 = [{ int_field := 1 }]
    ∧ search_page demoPageStore (fun _ => true) (fun e => e.int_field)
        .desc 3 1 = []
    ∧ (∀ (store : List Entity) (pred : Entity → Bool) (key : Entity → Int)
        (ord : SortOrder) (page perpage : Nat),
      (store.filter pred).length ≤ page * perpage →
      search_page store pred key ord page perpage = []) := by
  refine ⟨by decide, by decide, by decide, by decide, by decide, by decide,
    by decide, by decide, ?_⟩
  intro store pred key ord page perpage h
  have hlen : (sortEntities key ord (store.filter pred)).length
      ≤ page * perpage := by
    rw [sortEntities_length]; exact h
  simp [search_page, paginate, List.drop_eq_nil_of_le hlen]

theorem search_pagination_and_order_witness :
    search_page demoPageStore (fun _ => true) (fun e => e.int_field)
        .asc 3 1 = [] :=
  (search_pagination_and_order.2.2.2.2.2.2.2.2) demoPageStore
    (fun _ => true) (fun e => e.int_field) .asc 3 1 (by decide)

/-- Attribute values carried by the objects compared in the source:
integers, text, booleans, byte strings and calendar timestamps. -/
inductive PyVal where
  | int : Int → PyVal
  | str : String → PyVal
  | bool : Bool → PyVal
  | bytes : List Nat → PyVal
  | datetime : Int → PyVal
deriving DecidableEq

/-- An object as its attribute dictionary: attribute names paired with
values, in insertion order. -/
def PyObject : Type := List (String × PyVal)

/-- Value equality of the host language: booleans compare equal to the
corresponding integers, values of otherwise different types are unequal. -/
def pyEq : PyVal → PyVal → Bool
  | .int a, .int b => a == b
  | .str a, .str b => a == b
  | .bool a, .bool b => a == b
  | .bool a, .int b => (if a then (1 : Int) else 0) == b
  | .int a, .bool b => a == (if b then (1 : Int) else 0)
  | .bytes a, .bytes b => a == b
  | .datetime a, .datetime b => a == b
  | _, _ => false

/-- The instance test of the source: the value is an integer, a text or a
boolean (byte strings and timestamps are not). -/
def isBaseScalar : PyVal → Bool
  | .int _ => true
  | .str _ => true
  | .bool _ => true
  | _ => false

/-- Attribute access on an object: the first binding of the name, or
nothing when the attribute is absent (the source then raises). -/
def getattrOpt (o : PyObject) (a : String) : Option PyVal :=
  List.lookup a o

/-- Translated from compare_base_attributes of the source: walks the
attribute dictionary of the first object; for every int, str or bool
value it compares against the same attribute of the second object,
answering false on the first mismatch; other values are skipped; a
compared attribute missing from the second object raises, modelled as
the absent result. -/
def compare_base_attributes : PyObject → PyObject → Option Bool
  | [], _ => some true
  | (a, v) :: rest, o2 =>
    if isBaseScalar v then
      match getattrOpt o2 a with
      | Option.none => Option.none
      | some w =>
        if pyEq v w then compare_base_attributes rest o2 else some false
    else compare_base_attributes rest o2

/-- A demonstration object with one scalar and two non-scalar
attributes. -/
def demoObj1 : PyObject :=
  [("id", .str "abc"), ("id_bytes", .bytes [1]),
    ("created_datetime", .datetime 5)]

/-- A second object agreeing on the scalar attribute only: its byte and
timestamp attributes differ and it carries an extra integer attribute. -/
def demoObj2 : PyObject :=
  [("id", .str "abc"), ("id_bytes", .bytes [2]),
    ("created_datetime", .datetime 9), ("extra_int", .int 3)]

/-- C10: compare_base_attributes inspects only the int, str and bool
attributes of its first argument — dropping the others beforehand never
changes the verdict — so the two demonstration objects compare equal
although their byte and timestamp attributes differ, and the relation is
not symmetric: the reversed comparison does not succeed (the extra
integer attribute of the second object is missing from the first, which
raises). -/
theorem compare_base_attributes_scalar_only :
    (∀ (o1 o2 : PyObject),
      compare_base_attributes o1 o2
        = compare_base_attributes (o1.filter fun p => isBaseScalar p.2) o2)
    ∧ compare_base_attributes demoObj1 demoObj2 = some true
    ∧ getattrOpt demoObj1 "id_bytes" ≠ getattrOpt demoObj2 "id_bytes"
    ∧ getattrOpt demoObj1 "created_datetime"
        ≠ getattrOpt demoObj2 "created_datetime"
    ∧ compare_base_attributes demoObj2 demoObj1 ≠ some true := by
  refine ⟨?_, by decide, by decide, by decide, by decide⟩
  intro o1 o2
  induction o1 with
  | nil => rfl
  | cons p rest ih =>
    obtain ⟨a, v⟩ := p
    by_cases hs : isBaseScalar v = true
    · cases h2 : getattrOpt o2 a with
      | none =>
        simp [List.filter_cons, hs, compare_base_attributes, h2]
      | some w =>
        by_cases hw : pyEq v w = true <;>
          simp [List.filter_cons, hs, compare_base_attributes, h2, hw, ih]
    · simp [List.filter_cons, hs, compare_base_attributes, ih]

end TestHelper
